import Mathlib

/-!
Verification of the common operations module of the tito release tooling
(file src/tito/common.py).

The module is a thin orchestration layer around external commands, so the
embedding models each function as a pure Lean function of the data the
external commands would deliver: the listing of a directory, the content of
a metadata file, the output of git describe, the captured status and output
of git rev-parse, and so on.  Python strings are modelled character-wise
(List Char under the String structure); Python exceptions and the error
path through error_out (print and exit) are modelled as none or
Except.error; Python os.path functions are modelled after the posixpath
reference implementation.
-/

/-- Embedding of the Python method s.startswith(pat), character by
character: leadsWith pat s is true when pat is an initial segment of s. -/
def leadsWith : List Char → List Char → Bool
  | [], _ => true
  | _ :: _, [] => false
  | p :: ps, c :: cs => p == c && leadsWith ps cs

/-- Embedding of the Python method s.endswith(pat): true when pat is a
final segment of s. -/
def trailsWith (pat s : List Char) : Bool :=
  leadsWith pat.reverse s.reverse

/-- Substring containment: true when pat occurs contiguously inside s.
This models what grep does with a pattern that contains no regular
expression metacharacters, as in the check_tag_exists pipeline. -/
def hasSub (pat : List Char) : List Char → Bool
  | [] => leadsWith pat []
  | c :: rest => leadsWith pat (c :: rest) || hasSub pat rest

/-- Helper for the splitting functions: prepend a character to the first
component of a component list. -/
def consHead (c : Char) : List (List Char) → List (List Char)
  | [] => [[c]]
  | comp :: comps => (c :: comp) :: comps

/-- Embedding of the Python method s.split(sep) for a one-character
separator: every occurrence of sep starts a new component and empty
components are kept, exactly as in Python. -/
def splitOnChar (sep : Char) : List Char → List (List Char)
  | [] => [[]]
  | c :: rest =>
    if c = sep then [] :: splitOnChar sep rest
    else consHead c (splitOnChar sep rest)

/-- Splitting on every character satisfying a predicate, keeping empty
components; used below to build whitespace tokenisation. -/
def splitOnPred (p : Char → Bool) : List Char → List (List Char)
  | [] => [[]]
  | c :: rest =>
    if p c then [] :: splitOnPred p rest
    else consHead c (splitOnPred p rest)

/-- Whitespace-separated tokens of a character list: the nonempty
components between maximal whitespace runs.  This is the token notion the
specification uses (and what awk or the argument-less Python split use). -/
def wsTokens (l : List Char) : List (List Char) :=
  (splitOnPred (fun c => c.isWhitespace) l).filter (fun t => !t.isEmpty)

/-- Embedding of the Python method s.strip(): drop whitespace from both
ends of the character list. -/
def stripChars (l : List Char) : List Char :=
  ((l.dropWhile Char.isWhitespace).reverse.dropWhile Char.isWhitespace).reverse

/-- String wrapper around stripChars, modelling s.strip(). -/
def pyStrip (s : String) : String :=
  String.mk (stripChars s.data)

/-- Embedding of find_spec_file (common.py lines 37-49).  The directory is
represented by the list of names of its direct children, in listing order;
the function returns the first name ending in .spec, and the error_out
call on lines 49 is modelled by none.  Only bare names are returned, never
joined paths, exactly as in the source. -/
def find_spec_file : List String → Option String
  | [] => none
  | f :: rest =>
    if trailsWith (".spec").data f.data = true then some f
    else find_spec_file rest

/-- Embedding of the offline path of check_tag_exists (common.py lines
79-93, with offline = True so the function returns right after the local
check).  The local repository tags are the lines printed by git tag; the
shell pipeline git tag piped into grep exits with status 0 exactly when
the pattern matches some line, which for a metacharacter-free pattern
means some tag line contains the pattern as a substring.  The result is
true when the function returns normally and false when it reaches the
error_out call on line 85. -/
def check_tag_exists_offline (localTags : List String) (tag : String) : Bool :=
  localTags.any (fun t => hasSub tag.data t.data)

/-- Test whether a character list starts with a decimal digit; this is how
the regular expression fragment backslash-d-dot-star of get_project_name
constrains the character after the hyphen. -/
def nextIsDigit : List Char → Bool
  | d :: _ => d.isDigit
  | [] => false

/-- Embedding of the Python 2 call re.match with pattern
(.*?)-(backslash d.*) as used by get_project_name (common.py line 131):
the lazy group one takes the shortest newline-free prefix that is followed
by a hyphen and then a digit; the function returns that prefix, or none
when no such decomposition exists (dot does not match a newline, and the
match is anchored at the start).  The accumulator holds group one read
backwards. -/
def pyMatchProjectName (acc : List Char) : List Char → Option (List Char)
  | [] => none
  | c :: rest =>
    if c = '\n' then none
    else if c = '-' then
      if nextIsDigit rest then some acc.reverse
      else pyMatchProjectName (c :: acc) rest
    else pyMatchProjectName (c :: acc) rest

/-- Embedding of get_project_name (common.py lines 125-135) on the branch
where a tag is given: match the tag against (.*?)-(backslash d.*) and
return group one; the error_out call on line 134 is modelled by none. -/
def get_project_name (tag : String) : Option String :=
  (pyMatchProjectName [] tag.data).map String.mk

/-- Embedding of get_relative_project_dir (common.py lines 148-161).  The
argument is the content of rel-eng/packages/(project name) at the given
commit, i.e. the output of the git show command the function runs; the
function strips it, splits it on single spaces (the Python call
split with the explicit one-space separator, which keeps empty fields and
does not split on tabs), and takes index 1; the IndexError raised when
fewer than two fields exist is modelled by none. -/
def get_relative_project_dir (pkgMetadata : String) : Option String :=
  ((splitOnChar ' ' (pyStrip pkgMetadata).data)[1]?).map String.mk

/-- Embedding of the Python 2 negative index expression l[-2]: the element
two places from the end when the list has at least two elements, and an
IndexError (modelled none) otherwise. -/
def pyNegTwo (l : List (List Char)) : Option (List Char) :=
  if 2 ≤ l.length then l[l.length - 2]? else none

/-- Embedding of get_commit_count (common.py lines 175-196).  The inputs
are the tag and the output of git describe for the commit.  When they
differ the function returns the string at index -2 of the output split on
hyphens (Sum.inl, a Python string); when they are equal it returns the
integer zero (Sum.inr, a Python int); the sum type records the dynamic
typing of the two return statements. -/
def get_commit_count (tag output : String) : Option (Sum String Nat) :=
  if tag ≠ output then
    (pyNegTwo (splitOnChar '-' output.data)).map (fun f => Sum.inl (String.mk f))
  else some (Sum.inr 0)

/-- Model of the awk program that prints the first field of the first
input record and exits, applied to a file content: the first
whitespace-separated token of the first line, or the empty string when
the first line has no token.  The trailing newline printed by awk is
already removed by the command capture, as commands.getstatusoutput does. -/
def awkFirstField (content : String) : String :=
  String.mk ((wsTokens ((splitOnChar '\n' content.data).headD [])).headD [])

/-- Embedding of get_latest_tagged_version (common.py lines 250-268).  The
first argument tells whether rel-eng/packages/(package name) exists in the
working tree; the second is its content.  A missing file returns ok none
(the Python return None on line 262); an existing file whose extracted
first field strips to the empty string reaches error_out on line 266,
modelled Except.error; otherwise the field is returned. -/
def get_latest_tagged_version (fileExi : Bool) (content : String) :
    Except Unit (Option String) :=
  if fileExi = false then Except.ok none
  else if pyStrip (awkFirstField content) = ("") then Except.error ()
  else Except.ok (some (awkFirstField content))

/-- Embedding of normalize_class_name (common.py lines 271-280): rewrite a
leading spacewalk.releng. to tito. and leave any other name unchanged.
The Python slice name[17:] is the character drop below. -/
def normalize_class_name (name : String) : String :=
  if leadsWith ("spacewalk.releng.").data name.data = true then
    ("tito.") ++ String.mk (name.data.drop ("spacewalk.releng.").data.length)
  else name

/-- Number of initial slashes the posixpath.normpath reference
implementation preserves: one for a single leading slash or three and
more, two for exactly two (POSIX grants a double slash special meaning). -/
def initialSlashes (s : List Char) : Nat :=
  if s.take 1 = ['/'] then
    if s.take 2 = ['/', '/'] then
      if s.take 3 = ['/', '/', '/'] then 1 else 2
    else 1
  else 0

/-- One step of the posixpath.normpath component loop, with the component
stack kept in reverse order: empty and dot components are dropped, a
dot-dot component pops the stack unless the path is relative with an empty
stack or the stack already ends in dot-dot, and every other component is
pushed. -/
def npStep (slashes : Nat) (acc : List (List Char)) (comp : List Char) :
    List (List Char) :=
  if comp = [] ∨ comp = ['.'] then acc
  else if comp ≠ ['.', '.'] ∨ (slashes = 0 ∧ acc = []) ∨ acc.head? = some ['.', '.'] then
    comp :: acc
  else acc.tail

/-- Reassembly step of posixpath.normpath: the preserved leading slashes
followed by the surviving components joined with slashes, with the empty
result replaced by a dot. -/
def pathFromParts (slashes : Nat) (comps : List (List Char)) : String :=
  if List.replicate slashes '/' ++ List.intercalate (['/']) comps = [] then (".")
  else String.mk (List.replicate slashes '/' ++ List.intercalate (['/']) comps)

/-- Model of posixpath.normpath, the path normalisation os.path.abspath
performs on POSIX: empty input gives a dot, otherwise the component loop
over the slash-split input is reassembled behind the preserved leading
slashes. -/
def normpath (s : String) : String :=
  if s.data = [] then (".")
  else pathFromParts (initialSlashes s.data)
    (((splitOnChar '/' s.data).foldl (npStep (initialSlashes s.data)) []).reverse)

/-- Model of the two-argument posixpath.join, as called by os.path.join in
get_script_path and inside abspath: an absolute second argument wins;
otherwise the second argument is appended, with a separating slash unless
the first argument is empty or already ends in a slash. -/
def pyJoin (a b : String) : String :=
  if b.data.head? = some '/' then b
  else if a.data = [] ∨ a.data.getLast? = some '/' then a ++ b
  else a ++ ("/") ++ b

/-- Model of posixpath.abspath with an explicit current working directory:
a relative path is joined onto the working directory, and the result is
normalised. -/
def abspath (cwd s : String) : String :=
  if s.data.head? = some '/' then normpath s else normpath (pyJoin cwd s)

/-- Embedding of find_git_root (common.py lines 52-65).  The inputs are
the current working directory and the status and output captured from git
rev-parse with show-cdup; a nonzero status reaches error_out (none), the
empty output is replaced by the relative path dot-slash, and the result is
made absolute against the working directory. -/
def find_git_root (cwd : String) (status : Nat) (cdup : String) : Option String :=
  if status > 0 then none
  else some (abspath cwd (if cdup = ("") then ("./") else cdup))

/-- Embedding of get_script_path (common.py lines 283-294).  The first
argument is the value of the TITO_SRC_BIN_DIR environment variable when
set: unset leaves the script name unchanged (assumed to be found on PATH),
set prepends the directory with os.path.join.  The function inspects the
filesystem nowhere, which the embedding reflects by depending on nothing
but these two values. -/
def get_script_path (titoSrcBinDir : Option String) (scriptname : String) : String :=
  match titoSrcBinDir with
  | none => scriptname
  | some bin_dir => pyJoin bin_dir scriptname

/-- Claim C1 reads get_relative_project_dir as returning the second
whitespace-separated token of the metadata content; this definition
follows those words of the specification, for comparison with the
embedding of the source. -/
def specSecondWhitespaceToken (content : String) : Option String :=
  ((wsTokens content.data)[1]?).map String.mk

/-- Absence of a hyphen immediately followed by a digit anywhere in the
character list: the configurations in which the get_project_name pattern
can never fire. -/
def noHyphenDigit : List Char → Bool
  | [] => true
  | c :: rest => (!(c == '-' && nextIsDigit rest)) && noHyphenDigit rest

/-! ### Helper lemmas -/

/-- Appending to a string concatenates the character lists. -/
theorem data_append (a b : String) : (a ++ b).data = a.data ++ b.data := rfl

/-- leadsWith accepts every extension of the pattern itself. -/
theorem leadsWith_append_self (a t : List Char) : leadsWith a (a ++ t) = true := by
  induction a with
  | nil => rfl
  | cons x xs ih => simp [leadsWith, ih]

/-- A successful leadsWith test decomposes the string after the pattern. -/
theorem leadsWith_exists_of_eq_true {a b : List Char} (h : leadsWith a b = true) :
    ∃ t, b = a ++ t := by
  induction a generalizing b with
  | nil => exact ⟨b, rfl⟩
  | cons x xs ih =>
    cases b with
    | nil => simp [leadsWith] at h
    | cons y ys =>
      simp [leadsWith] at h
      obtain ⟨t, ht⟩ := ih h.2
      exact ⟨t, by simp [h.1, ht]⟩

/-- The spacewalk.releng. marker never leads a name that starts with the
tito. marker. -/
theorem leadsWith_sw_not_tito (t : List Char) :
    leadsWith ("spacewalk.releng.").data (("tito.").data ++ t) = false := rfl

/-- The first spec file in a listing is the head of the filtered listing. -/
theorem find_spec_file_eq_filter_head (l : List String) :
    find_spec_file l =
      (l.filter (fun g => trailsWith (".spec").data g.data)).head? := by
  induction l with
  | nil => rfl
  | cons x xs ih =>
    rw [show find_spec_file (x :: xs)
        = if trailsWith (".spec").data x.data = true then some x else find_spec_file xs
      from rfl]
    rw [List.filter_cons]
    by_cases h : trailsWith (".spec").data x.data = true
    · rw [if_pos h, if_pos (by exact h)]
      rfl
    · rw [if_neg h, if_neg (by exact h), ih]

/-- The element at reversed index one is the Python index -2 element. -/
theorem reverse_one_eq_pyNegTwo (l : List (List Char)) : l.reverse[1]? = pyNegTwo l := by
  unfold pyNegTwo
  by_cases h : 2 ≤ l.length
  · rw [if_pos h, List.getElem?_reverse (by omega : 1 < l.length)]
    congr 1
  · rw [if_neg h]
    apply List.getElem?_eq_none
    simp only [List.length_reverse]
    omega

/-- Splitting never produces an empty component list. -/
theorem splitOnChar_ne_nil (sep : Char) (l : List Char) : splitOnChar sep l ≠ [] := by
  induction l with
  | nil => simp [splitOnChar]
  | cons c rest ih =>
    by_cases h : c = sep
    · simp [splitOnChar, h]
    · simp only [splitOnChar, if_neg h]
      cases hx : splitOnChar sep rest with
      | nil => exact absurd hx ih
      | cons a as => simp [consHead]

/-- Splitting distributes over an interior separator occurrence. -/
theorem splitOnChar_append (sep : Char) (xs ys : List Char) :
    splitOnChar sep (xs ++ sep :: ys) = splitOnChar sep xs ++ splitOnChar sep ys := by
  induction xs with
  | nil => simp [splitOnChar]
  | cons c rest ih =>
    by_cases h : c = sep
    · simp [splitOnChar, h, ih]
    · simp only [List.cons_append, splitOnChar, if_neg h, List.append_eq]
      rw [ih]
      cases hx : splitOnChar sep rest with
      | nil => exact absurd hx (splitOnChar_ne_nil sep rest)
      | cons a as => simp [consHead]

/-- A separator-free list splits into the single component it is. -/
theorem splitOnChar_eq_single (sep : Char) (xs : List Char) (h : ∀ c ∈ xs, c ≠ sep) :
    splitOnChar sep xs = [xs] := by
  induction xs with
  | nil => rfl
  | cons c rest ih =>
    have hc : c ≠ sep := h c (by simp)
    have ih2 := ih (fun d hd => h d (by simp [hd]))
    simp [splitOnChar, hc, ih2, consHead]

/-! ### Claims C2, C3, C6, C8, C10 -/

/-- C2: the claim demands that the offline tag-existence check fail
whenever the tag is not itself a local tag, even when another local tag
contains it as a substring.  The code pipes git tag through grep, which
matches substrings of tag lines, so with local tags foo-bar only, the
check for the absent tag foo passes; this theorem evaluates the embedding
at that failing input.  The docstring of check_tag_exists and the
specification both describe the check as tag existence, so this is a
defect of the code, not of the claim. -/
theorem C2_check_tag_exists_substring_passes :
    check_tag_exists_offline (["foo-bar"]) ("foo") = true
    ∧ ("foo" : String) ∉ (["foo-bar"] : List String) := by
  decide

/-- C3: get_commit_count returns the Python integer zero when the describe
output equals the tag exactly, and otherwise returns the second-to-last
hyphen-delimited field of the describe output as a Python string (where
none models the IndexError raised when the split has fewer than two
fields, so no second-to-last field exists). -/
theorem C3_get_commit_count_spec (tag output : String) :
    get_commit_count tag output =
      if output = tag then some (Sum.inr 0)
      else ((splitOnChar '-' output.data).reverse[1]?).map (fun f => Sum.inl (String.mk f)) := by
  unfold get_commit_count
  by_cases h : output = tag
  · rw [if_neg (not_not_intro h.symm), if_pos h]
  · rw [if_pos (fun hx : tag = output => h hx.symm), if_neg h, reverse_one_eq_pyNegTwo]

/-- C6: on a directory listing with exactly one name ending in .spec,
find_spec_file returns that bare name (an element of the listing, never a
joined path), and on a listing with no such name it reaches error_out,
modelled none. -/
theorem C6_find_spec_file_spec (listing : List String) (f : String) :
    (listing.filter (fun g => trailsWith (".spec").data g.data) = [f] →
      find_spec_file listing = some f)
    ∧ (listing.filter (fun g => trailsWith (".spec").data g.data) = [] →
      find_spec_file listing = none) := by
  constructor
  · intro h
    rw [find_spec_file_eq_filter_head, h]
    rfl
  · intro h
    rw [find_spec_file_eq_filter_head, h]
    rfl

/-- Witness for C6 at a concrete listing with one spec file and one with
none. -/
theorem C6_find_spec_file_witness :
    find_spec_file (["README.md", "tito.spec", "Makefile"]) = some ("tito.spec")
    ∧ find_spec_file (["README.md", "Makefile"]) = none :=
  ⟨(C6_find_spec_file_spec (["README.md", "tito.spec", "Makefile"]) ("tito.spec")).1 (by decide),
   (C6_find_spec_file_spec (["README.md", "Makefile"]) ("tito.spec")).2 (by decide)⟩

/-- C8: normalize_class_name is idempotent, rewrites a leading
spacewalk.releng. to tito., and returns every name without that leading
marker unchanged. -/
theorem C8_normalize_class_name_spec :
    (∀ name : String,
      normalize_class_name (normalize_class_name name) = normalize_class_name name)
    ∧ (∀ rest : String,
      normalize_class_name (("spacewalk.releng.") ++ rest) = ("tito.") ++ rest)
    ∧ (∀ name : String,
      leadsWith ("spacewalk.releng.").data name.data = false →
      normalize_class_name name = name) := by
  have hun : ∀ name : String, leadsWith ("spacewalk.releng.").data name.data = false →
      normalize_class_name name = name := by
    intro name h
    unfold normalize_class_name
    rw [if_neg (by simp [h])]
  have hrw : ∀ rest : String,
      normalize_class_name (("spacewalk.releng.") ++ rest) = ("tito.") ++ rest := by
    intro rest
    unfold normalize_class_name
    rw [data_append]
    rw [if_pos (leadsWith_append_self (("spacewalk.releng.").data) rest.data)]
    congr 1
  refine ⟨?_, hrw, hun⟩
  intro name
  by_cases h : leadsWith ("spacewalk.releng.").data name.data = true
  · obtain ⟨t, ht⟩ := leadsWith_exists_of_eq_true h
    have h1 : normalize_class_name name = ("tito.") ++ String.mk t := by
      unfold normalize_class_name
      rw [if_pos h]
      congr 1
      rw [ht, List.drop_left]
    rw [h1]
    apply hun
    rw [data_append]
    exact leadsWith_sw_not_tito t
  · have hfalse : leadsWith ("spacewalk.releng.").data name.data = false := by
      cases hx : leadsWith ("spacewalk.releng.").data name.data
      · rfl
      · exact absurd hx h
    rw [hun name hfalse, hun name hfalse]

/-- Witness for C8 at concrete class names from both branches. -/
theorem C8_normalize_class_name_witness :
    normalize_class_name (normalize_class_name ("spacewalk.releng.tagger.VersionTagger"))
      = normalize_class_name ("spacewalk.releng.tagger.VersionTagger")
    ∧ normalize_class_name (("spacewalk.releng.") ++ ("builder.Builder"))
      = ("tito.") ++ ("builder.Builder")
    ∧ normalize_class_name ("other.Class") = ("other.Class") :=
  ⟨C8_normalize_class_name_spec.1 ("spacewalk.releng.tagger.VersionTagger"),
   C8_normalize_class_name_spec.2.1 ("builder.Builder"),
   C8_normalize_class_name_spec.2.2 ("other.Class") (by decide)⟩

/-- C10: get_script_path returns the script name unchanged when the
TITO_SRC_BIN_DIR variable is unset, and the posix join of the directory
and the script name when it is set; for a nonempty directory without a
trailing slash and a script name that is not absolute, the join inserts a
single slash.  The embedding depends on nothing but the variable and the
name, reflecting that the source never consults the filesystem. -/
theorem C10_get_script_path_spec :
    (∀ n : String, get_script_path none n = n)
    ∧ (∀ d n : String, get_script_path (some d) n = pyJoin d n)
    ∧ (∀ d n : String, d.data ≠ [] → d.data.getLast? ≠ some '/' →
        n.data.head? ≠ some '/' → get_script_path (some d) n = d ++ ("/") ++ n) := by
  refine ⟨fun n => rfl, fun d n => rfl, fun d n h0 h1 h2 => ?_⟩
  show pyJoin d n = _
  unfold pyJoin
  rw [if_neg h2, if_neg (not_or.2 ⟨h0, h1⟩)]

/-- Witness for C10 at a concrete directory and script name. -/
theorem C10_get_script_path_witness :
    get_script_path none ("tar-fixup-stamp-comment.pl") = ("tar-fixup-stamp-comment.pl")
    ∧ get_script_path (some ("/src/bin")) ("x.pl") = ("/src/bin") ++ ("/") ++ ("x.pl") :=
  ⟨C10_get_script_path_spec.1 ("tar-fixup-stamp-comment.pl"),
   C10_get_script_path_spec.2.2 ("/src/bin") ("x.pl") (by decide) (by decide) (by decide)⟩

/-! ### Claims C1, C4, C5, C7 -/

/-- Stripping leaves a list alone when neither end is whitespace. -/
theorem stripChars_eq_self_of_ends (l : List Char)
    (h1 : ∀ c, l.head? = some c → c.isWhitespace = false)
    (h2 : ∀ c, l.getLast? = some c → c.isWhitespace = false) :
    stripChars l = l := by
  unfold stripChars
  have e1 : l.dropWhile Char.isWhitespace = l := by
    cases l with
    | nil => rfl
    | cons c rest =>
      rw [List.dropWhile_cons, if_neg (by simp [h1 c rfl])]
  rw [e1]
  have e2 : l.reverse.dropWhile Char.isWhitespace = l.reverse := by
    cases hr : l.reverse with
    | nil => rfl
    | cons c rest =>
      have hc : l.getLast? = some c := by
        rw [← List.head?_reverse l, hr]
        rfl
      rw [List.dropWhile_cons, if_neg (by simp [h2 c hc])]
  rw [e2, List.reverse_reverse]

/-- C1 counterexample: on the content with two spaces between the tokens,
the code returns the empty field between the two spaces (the Python
single-space split keeps empty fields), not the second whitespace token
the claim promises. -/
theorem C1_relative_project_dir_counterexample :
    get_relative_project_dir ("1.0  somedir") ≠ specSecondWhitespaceToken ("1.0  somedir") := by
  decide

/-- C1 amended: when the stripped historical metadata content consists of
two nonempty whitespace-free tokens separated by exactly one space (the
format the rel-eng packages files use), get_relative_project_dir returns
the second token; for other whitespace separations the single-space split
of the code disagrees with whitespace tokenisation. -/
theorem C1_relative_project_dir_amended (a b : String)
    (ha0 : a.data ≠ []) (hb0 : b.data ≠ [])
    (ha : ∀ c ∈ a.data, c.isWhitespace = false)
    (hb : ∀ c ∈ b.data, c.isWhitespace = false) :
    get_relative_project_dir (a ++ (" ") ++ b) = some b := by
  have hdata : (a ++ (" ") ++ b).data = a.data ++ ' ' :: b.data := by
    rw [data_append, data_append]
    simp
  have hstrip : stripChars (a.data ++ ' ' :: b.data) = a.data ++ ' ' :: b.data := by
    apply stripChars_eq_self_of_ends
    · intro c hc
      cases hA : a.data with
      | nil => exact absurd hA ha0
      | cons x xs =>
        rw [hA] at hc
        have hcx : x = c := Option.some_inj.1 hc
        subst hcx
        exact ha x (by rw [hA]; exact List.mem_cons_self x xs)
    · intro c hc
      have he : (a.data ++ ' ' :: b.data) = (a.data ++ [' ']) ++ b.data := by simp
      rw [he, List.getLast?_append_of_ne_nil (a.data ++ [' ']) hb0] at hc
      rw [List.getLast?_eq_getLast b.data hb0, Option.some_inj] at hc
      exact hb c (hc ▸ List.getLast_mem hb0)
  have haspace : ∀ c ∈ a.data, c ≠ ' ' := by
    intro c hc he
    have hw := ha c hc
    rw [he] at hw
    exact absurd hw (by decide)
  have hbspace : ∀ c ∈ b.data, c ≠ ' ' := by
    intro c hc he
    have hw := hb c hc
    rw [he] at hw
    exact absurd hw (by decide)
  show ((splitOnChar ' ' (stripChars ((a ++ (" ") ++ b)).data))[1]?).map String.mk = some b
  rw [hdata, hstrip, splitOnChar_append]
  rw [splitOnChar_eq_single ' ' a.data haspace, splitOnChar_eq_single ' ' b.data hbspace]
  rfl

/-- Witness for the amended C1 at a concrete two-token metadata line. -/
theorem C1_relative_project_dir_witness :
    get_relative_project_dir (("1.0") ++ (" ") ++ ("./somedir")) = some ("./somedir") :=
  C1_relative_project_dir_amended ("1.0") ("./somedir")
    (by decide) (by decide) (by decide) (by decide)

/-- Prepending a hyphen block after a list whose head is not a digit
cannot make the head a digit. -/
theorem nextIsDigit_append_hyphen (l ver : List Char) (h : nextIsDigit l = false) :
    nextIsDigit (l ++ '-' :: ver) = false := by
  cases l with
  | nil => rfl
  | cons d rest => exact h

/-- Core of C4: scanning name-hyphen-version, where the name part contains
no digit-preceded hyphen and no newline and the version starts with a
digit, stops exactly at the joining hyphen and returns the accumulated
prefix followed by the name. -/
theorem pyMatch_finds_boundary (l : List Char) :
    ∀ (acc ver : List Char), nextIsDigit ver = true → noHyphenDigit l = true →
    (∀ c ∈ l, c ≠ '\n') →
    pyMatchProjectName acc (l ++ '-' :: ver) = some (acc.reverse ++ l) := by
  induction l with
  | nil =>
    intro acc ver hd _ _
    simp only [List.nil_append, pyMatchProjectName]
    simp [hd]
  | cons c rest ih =>
    intro acc ver hd hnohd hnl
    rw [show noHyphenDigit (c :: rest)
        = ((!(c == '-' && nextIsDigit rest)) && noHyphenDigit rest) from rfl,
      Bool.and_eq_true] at hnohd
    simp only [List.cons_append, pyMatchProjectName, List.append_eq]
    rw [if_neg (hnl c (List.mem_cons_self c rest))]
    by_cases hc : c = '-'
    · subst hc
      have hnd : nextIsDigit rest = false := by simpa using hnohd.1
      rw [if_pos rfl]
      rw [if_neg (by simp [nextIsDigit_append_hyphen rest ver hnd])]
      rw [ih ('-' :: acc) ver hd hnohd.2 (fun d hdm => hnl d (List.mem_cons_of_mem _ hdm))]
      simp
    · rw [if_neg hc]
      rw [ih (c :: acc) ver hd hnohd.2 (fun d hdm => hnl d (List.mem_cons_of_mem _ hdm))]
      simp

/-- C4 counterexample: a tag of the claimed shape whose name part contains
a newline is rejected by the code (dot in the Python pattern does not
match a newline), although the claim promises the substring before the
first digit-preceded hyphen. -/
theorem C4_project_name_counterexample :
    get_project_name (("a\nb") ++ ("-") ++ ("1")) = none
    ∧ get_project_name (("a\nb") ++ ("-") ++ ("1")) ≠ some ("a\nb") := by
  decide

/-- C4 amended: for a tag assembled from a name, a hyphen and a version
starting with a digit, where the name contains no digit-preceded hyphen
(so the joining hyphen is the first such boundary) and no newline,
get_project_name returns exactly the name. -/
theorem C4_project_name_amended (name ver : String)
    (h1 : noHyphenDigit name.data = true)
    (h2 : ∀ c ∈ name.data, c ≠ '\n')
    (h3 : nextIsDigit ver.data = true) :
    get_project_name (name ++ ("-") ++ ver) = some name := by
  unfold get_project_name
  have hd : (name ++ ("-") ++ ver).data = name.data ++ '-' :: ver.data := by
    rw [data_append, data_append]
    simp
  rw [hd, pyMatch_finds_boundary name.data [] ver.data h3 h1 h2]
  rfl

/-- Witness for the amended C4 at the two tag shapes named by the claim. -/
theorem C4_project_name_witness :
    get_project_name (("my-app") ++ ("-") ++ ("1.2.3")) = some ("my-app")
    ∧ get_project_name (("name") ++ ("-") ++ ("1.2.3")) = some ("name") :=
  ⟨C4_project_name_amended ("my-app") ("1.2.3") (by decide) (by decide) (by decide),
   C4_project_name_amended ("name") ("1.2.3") (by decide) (by decide) (by decide)⟩

/-- Core of C5: a tag without any digit-preceded hyphen never matches the
pattern, whatever has been accumulated. -/
theorem pyMatch_none_of_noHyphenDigit (l : List Char) :
    ∀ acc, noHyphenDigit l = true → pyMatchProjectName acc l = none := by
  induction l with
  | nil =>
    intro acc _
    rfl
  | cons c rest ih =>
    intro acc h
    rw [show noHyphenDigit (c :: rest)
        = ((!(c == '-' && nextIsDigit rest)) && noHyphenDigit rest) from rfl,
      Bool.and_eq_true] at h
    simp only [pyMatchProjectName]
    by_cases hn : c = '\n'
    · rw [if_pos hn]
    · rw [if_neg hn]
      by_cases hc : c = '-'
      · subst hc
        have hnd : nextIsDigit rest = false := by simpa using h.1
        rw [if_pos rfl, if_neg (by simp [hnd]), ih ('-' :: acc) h.2]
      · rw [if_neg hc, ih (c :: acc) h.2]

/-- C5 counterexample: the tag consisting of a hyphen and a digit does not
match the claimed shape (the name part would be empty), yet the code
succeeds and returns the empty name, because the lazy group of the
pattern may match the empty string. -/
theorem C5_project_name_counterexample :
    (¬ ∃ a b : List Char, ("-1" : String).data = a ++ '-' :: b ∧ a ≠ [] ∧ nextIsDigit b = true)
    ∧ get_project_name ("-1") = some ("") := by
  constructor
  · rintro ⟨a, b, heq, hne, hd⟩
    have h2 : ('-' :: '1' :: ([] : List Char)) = a ++ '-' :: b := heq
    cases a with
    | nil => exact hne rfl
    | cons x a2 =>
      rw [List.cons_append] at h2
      injection h2 with hx htl
      cases a2 with
      | nil =>
        rw [List.nil_append] at htl
        injection htl with hy _
        exact absurd hy (by decide)
      | cons y a3 =>
        rw [List.cons_append] at htl
        injection htl with hy htl2
        exact absurd htl2 (by simp)
  · decide

/-- C5 amended: get_project_name fails exactly on tags without any
digit-preceded hyphen; the name before the matched hyphen may be empty,
so success does not require a nonempty name part. -/
theorem C5_project_name_amended (tag : String) (h : noHyphenDigit tag.data = true) :
    get_project_name tag = none := by
  unfold get_project_name
  rw [pyMatch_none_of_noHyphenDigit tag.data [] h]
  rfl

/-- Witness for the amended C5 at a tag with a hyphen but no version. -/
theorem C5_project_name_witness : get_project_name ("name-alpha") = none :=
  C5_project_name_amended ("name-alpha") (by decide)

/-- C7: a missing metadata file yields the absent value without a fault,
and an existing file whose first line carries no token (the awk first
field is empty) reaches error_out.  The token hypothesis names the first
whitespace-separated token of the first line of the content. -/
theorem C7_latest_tagged_version_spec (content : String) :
    get_latest_tagged_version false content = Except.ok none
    ∧ ((wsTokens ((splitOnChar '\n' content.data).headD [])).headD [] = [] →
      get_latest_tagged_version true content = Except.error ()) := by
  constructor
  · rfl
  · intro h
    have hawk : awkFirstField content = ("") := by
      unfold awkFirstField
      rw [h]
    unfold get_latest_tagged_version
    rw [hawk, if_neg (by decide : ¬(true = false))]
    rfl

/-- Witness for C7 at a missing file and at an empty existing file. -/
theorem C7_latest_tagged_version_witness :
    get_latest_tagged_version false ("1.0 ./somedir") = Except.ok none
    ∧ get_latest_tagged_version true ("") = Except.error () :=
  ⟨(C7_latest_tagged_version_spec ("1.0 ./somedir")).1,
   (C7_latest_tagged_version_spec ("")).2 (by decide)⟩

/-! ### Claim C9 -/

/-- An empty component is skipped by the normpath loop. -/
theorem npStep_nil_comp (s : Nat) (acc : List (List Char)) : npStep s acc [] = acc := by
  simp [npStep]

/-- A dot component is skipped by the normpath loop. -/
theorem npStep_dot_comp (s : Nat) (acc : List (List Char)) : npStep s acc ['.'] = acc := by
  simp [npStep]

/-- A trailing dot component followed by a trailing empty component leave
the loop state unchanged. -/
theorem foldl_npStep_dotnil (s : Nat) (X : List (List Char)) (acc : List (List Char)) :
    (X ++ [['.'], []]).foldl (npStep s) acc = X.foldl (npStep s) acc := by
  rw [List.foldl_append, List.foldl_cons, List.foldl_cons, List.foldl_nil]
  rw [npStep_dot_comp, npStep_nil_comp]

/-- A trailing empty component leaves the loop state unchanged. -/
theorem foldl_npStep_nil (s : Nat) (X : List (List Char)) (acc : List (List Char)) :
    (X ++ [[]]).foldl (npStep s) acc = X.foldl (npStep s) acc := by
  rw [List.foldl_append, List.foldl_cons, List.foldl_nil]
  rw [npStep_nil_comp]

/-- The slash count only inspects the first three characters. -/
theorem initialSlashes_cons3 (a b c : Char) (r s : List Char) :
    initialSlashes (a :: b :: c :: r) = initialSlashes (a :: b :: c :: s) := by
  simp only [initialSlashes, List.take_succ_cons, List.take_zero]

/-- Appending dot-slash after a trailing slash does not change the slash
count. -/
theorem initialSlashes_append_dotslash (xs : List Char) (h : xs.getLast? = some '/') :
    initialSlashes (xs ++ ['.', '/']) = initialSlashes xs := by
  rcases xs with _ | ⟨a, _ | ⟨b, _ | ⟨c, r⟩⟩⟩
  · simp at h
  · have ha : a = '/' := by simpa using h
    subst ha
    decide
  · have hb : b = '/' := by simpa using h
    subst hb
    by_cases ha : a = '/'
    · subst ha
      decide
    · simp [initialSlashes, List.take_succ_cons, ha]
  · have h3 := initialSlashes_cons3 a b c (r ++ ['.', '/']) r
    simpa using h3

/-- Appending slash-dot-slash after a nonempty list without a trailing
slash does not change the slash count. -/
theorem initialSlashes_append_sds (xs : List Char) (h0 : xs ≠ [])
    (h : xs.getLast? ≠ some '/') :
    initialSlashes (xs ++ ['/', '.', '/']) = initialSlashes xs := by
  rcases xs with _ | ⟨a, _ | ⟨b, _ | ⟨c, r⟩⟩⟩
  · exact absurd rfl h0
  · have ha : a ≠ '/' := fun hx => h (by simp [hx])
    simp [initialSlashes, List.take_succ_cons, ha]
  · have hb : b ≠ '/' := fun hx => h (by simp [hx])
    by_cases ha : a = '/'
    · subst ha
      simp [initialSlashes, List.take_succ_cons, hb]
    · simp [initialSlashes, List.take_succ_cons, ha]
  · have h3 := initialSlashes_cons3 a b c (r ++ ['/', '.', '/']) r
    simpa using h3

/-- Two nonempty paths with the same slash count and the same loop result
normalise identically. -/
theorem normpath_congr (s t : String) (hs : s.data ≠ []) (ht : t.data ≠ [])
    (h2 : (splitOnChar '/' s.data).foldl (npStep (initialSlashes s.data)) []
        = (splitOnChar '/' t.data).foldl (npStep (initialSlashes t.data)) [])
    (h1 : initialSlashes s.data = initialSlashes t.data) :
    normpath s = normpath t := by
  unfold normpath
  rw [if_neg hs, if_neg ht, h2, h1]

/-- Joining dot-slash onto a path with a trailing slash appends it
directly. -/
theorem pyJoin_dotslash_last_slash (a : String) (h : a.data.getLast? = some '/') :
    pyJoin a ("./") = a ++ ("./") := by
  unfold pyJoin
  rw [if_neg (by decide : ¬((("./") : String).data.head? = some '/')), if_pos (Or.inr h)]

/-- Joining dot-slash onto a nonempty path without a trailing slash
inserts a separator. -/
theorem pyJoin_dotslash_mid (a : String) (h0 : a.data ≠ []) (h : a.data.getLast? ≠ some '/') :
    pyJoin a ("./") = a ++ ("/") ++ ("./") := by
  unfold pyJoin
  rw [if_neg (by decide : ¬((("./") : String).data.head? = some '/')),
    if_neg (not_or.2 ⟨h0, h⟩)]

/-- Joining the relative path dot-slash onto any working directory and
normalising gives the normalisation of the working directory itself. -/
theorem normpath_pyJoin_dotslash (cwd : String) :
    normpath (pyJoin cwd ("./")) = normpath cwd := by
  by_cases h0 : cwd.data = []
  · have hcwd : cwd = ("") := String.ext h0
    rw [hcwd]
    decide
  · by_cases h1 : cwd.data.getLast? = some '/'
    · rw [pyJoin_dotslash_last_slash cwd h1]
      obtain ⟨pre, hpre⟩ : ∃ pre, cwd.data = pre ++ ['/'] := by
        refine ⟨cwd.data.dropLast, ?_⟩
        have hg := List.dropLast_append_getLast h0
        rw [List.getLast?_eq_getLast cwd.data h0, Option.some_inj] at h1
        rw [h1] at hg
        exact hg.symm
      have hslash : initialSlashes ((cwd ++ ("./")).data) = initialSlashes cwd.data := by
        rw [data_append]
        exact initialSlashes_append_dotslash cwd.data h1
      apply normpath_congr
      · rw [data_append]
        intro hnil
        exact absurd (List.append_eq_nil.1 hnil).2 (by decide)
      · exact h0
      · rw [hslash, data_append, hpre]
        rw [show (pre ++ ['/']) ++ (("./") : String).data = pre ++ '/' :: ['.', '/'] by simp]
        rw [splitOnChar_append, splitOnChar_append]
        rw [show splitOnChar '/' ['.', '/'] = [['.'], []] from by decide]
        rw [show splitOnChar '/' ([] : List Char) = [[]] from rfl]
        rw [foldl_npStep_dotnil, foldl_npStep_nil]
      · exact hslash
    · rw [pyJoin_dotslash_mid cwd h0 h1]
      have hslash : initialSlashes ((cwd ++ ("/") ++ ("./")).data) = initialSlashes cwd.data := by
        rw [data_append, data_append]
        rw [show cwd.data ++ ((("/") : String).data) ++ ((("./") : String).data)
            = cwd.data ++ ['/', '.', '/'] by simp]
        exact initialSlashes_append_sds cwd.data h0 h1
      apply normpath_congr
      · rw [data_append]
        intro hnil
        exact absurd (List.append_eq_nil.1 hnil).2 (by decide)
      · exact h0
      · rw [hslash, data_append, data_append]
        rw [show cwd.data ++ ((("/") : String).data) ++ ((("./") : String).data)
            = cwd.data ++ '/' :: ['.', '/'] by simp]
        rw [splitOnChar_append]
        rw [show splitOnChar '/' ['.', '/'] = [['.'], []] from by decide]
        rw [foldl_npStep_dotnil]
      · exact hslash

/-- C9: when git rev-parse succeeds with empty output, find_git_root
treats the output as the relative path dot-slash and returns the current
working directory made absolute; for a working directory that is already
an absolute normalised path, that is the working directory itself. -/
theorem C9_find_git_root_empty_cdup (cwd : String)
    (habs : cwd.data.head? = some '/')
    (hnorm : normpath cwd = cwd) :
    find_git_root cwd 0 ("") = some cwd := by
  have h1 : find_git_root cwd 0 ("") = some (abspath cwd ("./")) := rfl
  rw [h1]
  have h2 : abspath cwd ("./") = normpath (pyJoin cwd ("./")) := by
    unfold abspath
    rw [if_neg (by decide : ¬((("./") : String).data.head? = some '/'))]
  rw [h2, normpath_pyJoin_dotslash, hnorm]

/-- Witness for C9 at a concrete absolute normalised working directory. -/
theorem C9_find_git_root_empty_cdup_witness :
    find_git_root ("/home/user/project") 0 ("") = some ("/home/user/project") :=
  C9_find_git_root_empty_cdup ("/home/user/project") (by decide) (by decide)
